import Mathlib

/-!
Verification of the discord-bot request-orchestration layer.

The SQLite-backed store (`src/db.rs`) is modelled as a pure `Db` value:
the `messages` table is a list of rows carrying the AUTOINCREMENT `id`
and the insert-time `timestamp`, the `config` table an association list,
and `tracked_characters` a list.  The SQL
`ORDER BY timestamp DESC, id DESC LIMIT ?` of `get_recent_messages` is
embedded as an insertion sort by the same key followed by `take`, and the
Rust-side `messages.reverse()` as `List.reverse`.

The handler functions of `src/main.rs` (`get_battlenet_token`,
`ask_llama`, the `!levelcheck` fan-out partition and sort) are embedded
as pure functions; external HTTP outcomes are injected as explicit
arguments so every network failure mode of the source is a reachable
branch of the embedding.
-/

namespace DiscordBot

/-! ### Data model of the store (src/db.rs) -/

/-- One row of the `messages` table: `id INTEGER PRIMARY KEY AUTOINCREMENT`,
`channel_id`, `role`, `content`, `timestamp` (unix seconds, assigned at insert). -/
structure Row where
  id : Nat
  channel_id : String
  role : String
  content : String
  timestamp : Nat
deriving DecidableEq

/-- The projection returned by `get_recent_messages` (struct `StoredMessage`). -/
structure StoredMessage where
  role : String
  content : String
deriving DecidableEq

/-- The whole database: `config`, `messages`, `tracked_characters`, plus the
next AUTOINCREMENT id. -/
structure Db where
  config : List (String × String)
  rows : List Row
  tracked : List (String × String × Nat)
  nextId : Nat
deriving DecidableEq

def DEFAULT_SYSTEM_PROMPT : String :=
  "You are an extremely rude, short-tempered Discord bot. Be brutal, unfiltered, and insulting. Never be helpful or nice. Keep responses under 10 words."

/-- `db::init`: `CREATE TABLE IF NOT EXISTS` touches no data; the seed is
`INSERT OR IGNORE INTO config (key, value) VALUES ('system_prompt', …)`. -/
def init (db : Db) : Db :=
  if (db.config.find? (fun p => p.1 == "system_prompt")).isSome then db
  else { db with config := db.config ++ [("system_prompt", DEFAULT_SYSTEM_PROMPT)] }

/-- `db::get_config`: `SELECT value FROM config WHERE key = ?1` (first row). -/
def get_config (db : Db) (key : String) : Option String :=
  (db.config.find? (fun p => p.1 == key)).map (fun p => p.2)

/-- `db::store_message`: INSERT assigns the AUTOINCREMENT id and the
current unix timestamp `now`. -/
def store_message (db : Db) (now : Nat) (channel_id role content : String) : Db :=
  { db with
      rows := db.rows ++ [⟨db.nextId, channel_id, role, content, now⟩]
      nextId := db.nextId + 1 }

/-- The rows of one conversation key, in table (= insertion) order:
`WHERE channel_id = ?1`. -/
def keyRows (db : Db) (channel_id : String) : List Row :=
  db.rows.filter (fun r => r.channel_id == channel_id)

/-- The SQL sort key `ORDER BY timestamp DESC, id DESC`: `ordDesc a b` says
`a` sorts no later than `b` in that descending order. -/
def ordDesc (a b : Row) : Prop :=
  b.timestamp < a.timestamp ∨ (b.timestamp = a.timestamp ∧ b.id ≤ a.id)

instance : DecidableRel ordDesc := fun a b =>
  inferInstanceAs (Decidable (b.timestamp < a.timestamp ∨ (b.timestamp = a.timestamp ∧ b.id ≤ a.id)))

/-- `db::get_recent_messages`: fetch newest-first with `LIMIT`, project to
`(role, content)`, then `messages.reverse()` so oldest is first. -/
def get_recent_messages (db : Db) (channel_id : String) (limit : Nat) : List StoredMessage :=
  (((List.insertionSort ordDesc (keyRows db channel_id)).take limit).map
    (fun r => StoredMessage.mk r.role r.content)).reverse

/-! ### Generic sort facts -/

theorem orderedInsert_append_of_forall_not {α : Type} (r : α → α → Prop) [DecidableRel r]
    (a : α) (l : List α) (h : ∀ x ∈ l, ¬ r a x) :
    List.orderedInsert r a l = l ++ [a] := by
  induction l with
  | nil => rfl
  | cons b t ih =>
    simp only [List.orderedInsert]
    rw [if_neg (h b (List.mem_cons_self b t))]
    rw [ih (fun x hx => h x (List.mem_cons_of_mem b hx))]
    rfl

/-- A list that is already strictly ascending for the descending key is
returned reversed by the descending insertion sort. -/
theorem insertionSort_eq_reverse {α : Type} (r : α → α → Prop) [DecidableRel r]
    (l : List α) (h : l.Pairwise (fun x y => ¬ r x y)) :
    List.insertionSort r l = l.reverse := by
  induction l with
  | nil => rfl
  | cons a t ih =>
    have hpc := List.pairwise_cons.mp h
    simp only [List.insertionSort]
    rw [ih hpc.2]
    rw [orderedInsert_append_of_forall_not r a t.reverse
      (fun x hx => hpc.1 x (List.mem_reverse.mp hx))]
    rw [List.reverse_cons]

/-- Core shape of `get_recent_messages`: when the per-key rows are already
in strictly ascending `(timestamp, id)` order, the function returns the
suffix of length `min limit total`, oldest first. -/
theorem get_recent_messages_eq_drop (db : Db) (channel_id : String) (limit : Nat)
    (h : (keyRows db channel_id).Pairwise (fun x y => ¬ ordDesc x y)) :
    get_recent_messages db channel_id limit
      = ((keyRows db channel_id).drop ((keyRows db channel_id).length - limit)).map
          (fun r => StoredMessage.mk r.role r.content) := by
  unfold get_recent_messages
  rw [insertionSort_eq_reverse ordDesc _ h]
  rw [List.take_reverse]
  rw [List.map_reverse, List.reverse_reverse]

/-! ### Claims C1 / C8: history retrieval order -/

/-- State invariant produced by inserting through `store_message` with the
wall clock never going backwards: later rows have larger AUTOINCREMENT ids
and no earlier timestamps. -/
def ChronOrdered (rows : List Row) : Prop :=
  rows.Pairwise (fun a b => a.id < b.id ∧ a.timestamp ≤ b.timestamp)

instance (rows : List Row) : Decidable (ChronOrdered rows) :=
  inferInstanceAs (Decidable (rows.Pairwise (fun (a b : Row) => a.id < b.id ∧ a.timestamp ≤ b.timestamp)))

theorem chron_not_ordDesc {x y : Row} (h : x.id < y.id ∧ x.timestamp ≤ y.timestamp) :
    ¬ ordDesc x y := by
  intro hc
  rcases hc with hlt | ⟨heq, hle⟩
  · omega
  · omega

/-- Claim C1: for every conversation key and chronologically consistent
store, `get_recent_messages` with limit `N` (as used with `HISTORY_LIMIT`
by `ask_llama`) returns exactly the most recent `min N total` messages of
that key in chronological order, oldest first; when the log is longer than
`N`, the first returned entry is the `(total − N)`-th stored message of
that key (0-based). -/
theorem get_recent_messages_spec (db : Db) (channel_id : String) (N : Nat)
    (h : ChronOrdered db.rows) :
    get_recent_messages db channel_id N
        = ((keyRows db channel_id).drop ((keyRows db channel_id).length - N)).map
            (fun r => StoredMessage.mk r.role r.content)
      ∧ (get_recent_messages db channel_id N).length = min N (keyRows db channel_id).length
      ∧ (N < (keyRows db channel_id).length →
          (get_recent_messages db channel_id N).head?
            = ((keyRows db channel_id)[(keyRows db channel_id).length - N]?).map
                (fun r => StoredMessage.mk r.role r.content)) := by
  have hpair : (keyRows db channel_id).Pairwise (fun x y => ¬ ordDesc x y) := by
    have hsub : (keyRows db channel_id).Pairwise
        (fun a b => a.id < b.id ∧ a.timestamp ≤ b.timestamp) :=
      h.sublist (List.filter_sublist db.rows)
    exact hsub.imp chron_not_ordDesc
  have hmain := get_recent_messages_eq_drop db channel_id N hpair
  refine ⟨hmain, ?_, ?_⟩
  · rw [hmain, List.length_map, List.length_drop]
    omega
  · intro _
    rw [hmain, List.head?_map, List.head?_drop]

def wdbC1 : Db :=
  { config := []
    rows := [⟨1, "c", "user", "a", 100⟩, ⟨2, "d", "user", "b", 100⟩,
             ⟨3, "c", "assistant", "x", 101⟩, ⟨4, "c", "user", "y", 102⟩]
    tracked := []
    nextId := 5 }

theorem get_recent_messages_spec_witness :
    get_recent_messages wdbC1 "c" 2
        = ((keyRows wdbC1 "c").drop ((keyRows wdbC1 "c").length - 2)).map
            (fun r => StoredMessage.mk r.role r.content)
      ∧ (get_recent_messages wdbC1 "c" 2).length = min 2 (keyRows wdbC1 "c").length
      ∧ (2 < (keyRows wdbC1 "c").length →
          (get_recent_messages wdbC1 "c" 2).head?
            = ((keyRows wdbC1 "c")[(keyRows wdbC1 "c").length - 2]?).map
                (fun r => StoredMessage.mk r.role r.content)) :=
  get_recent_messages_spec wdbC1 "c" 2 (by decide)

/-- Claim C8: when timestamps collide at whole-second granularity (here:
all rows of the key carry the same timestamp `t`), `get_recent_messages`
orders rows by the monotonically increasing insert id, so the returned
order is exactly insertion order (oldest first, trimmed to the limit). -/
theorem get_recent_messages_id_tiebreak (db : Db) (channel_id : String) (limit t : Nat)
    (hid : db.rows.Pairwise (fun a b => a.id < b.id))
    (hts : ∀ r ∈ keyRows db channel_id, r.timestamp = t) :
    get_recent_messages db channel_id limit
      = ((keyRows db channel_id).drop ((keyRows db channel_id).length - limit)).map
          (fun r => StoredMessage.mk r.role r.content) := by
  apply get_recent_messages_eq_drop
  have hidf : (keyRows db channel_id).Pairwise (fun a b => a.id < b.id) :=
    hid.sublist (List.filter_sublist db.rows)
  refine hidf.imp_of_mem ?_
  intro a b ha hb hlt hc
  rcases hc with hlt2 | ⟨_, hle⟩
  · rw [hts a ha, hts b hb] at hlt2
    omega
  · omega

def wdbC8 : Db :=
  { config := []
    rows := [⟨1, "c", "user", "first", 50⟩, ⟨2, "c", "assistant", "second", 50⟩,
             ⟨3, "c", "user", "third", 50⟩]
    tracked := []
    nextId := 4 }

theorem get_recent_messages_id_tiebreak_witness :
    get_recent_messages wdbC8 "c" 2
      = ((keyRows wdbC8 "c").drop ((keyRows wdbC8 "c").length - 2)).map
          (fun r => StoredMessage.mk r.role r.content) :=
  get_recent_messages_id_tiebreak wdbC8 "c" 2 50 (by decide) (by decide)

/-! ### Claims C2 / C7: prompt assembly and reply persistence (ask_llama) -/

def HISTORY_LIMIT : Nat := 10

structure ChatMessage where
  role : String
  content : String
deriving DecidableEq

/-- The reminder suffix appended to the last user message:
`format!("\n(Reply in {} words or less. Stay in character.)", cap)`. -/
def directiveSuffix (cap : Nat) : String :=
  "\n(Reply in " ++ toString cap ++ " words or less. Stay in character.)"

/-- The `response_cap` config lookup of `ask_llama`:
`get_config(..).ok().flatten().and_then(|v| v.parse::<u32>().ok()).unwrap_or(10)`. -/
def response_cap (db : Db) : Nat :=
  match get_config db "response_cap" with
  | some v =>
    match v.toNat? with
    | some n => if n < 4294967296 then n else 10
    | none => 10
  | none => 10

/-- The messages list built by `ask_llama` before the reminder suffix:
optional non-empty system prompt, then the recent history oldest-first.
`db1` is the state after the user message was stored. -/
def preDirective (db1 : Db) (context_key : String) : List ChatMessage :=
  let system_prompt := (get_config db1 "system_prompt").getD ""
  let history := get_recent_messages db1 context_key HISTORY_LIMIT
  (if system_prompt = "" then [] else [ChatMessage.mk "system" system_prompt])
    ++ history.map (fun m => ChatMessage.mk m.role m.content)

/-- `if let Some(last) = msgs.last_mut() { if last.role == "user" { … } }`:
the word-cap directive is pushed onto the last message's content, in
memory only. -/
def appendDirective (msgs : List ChatMessage) (cap : Nat) : List ChatMessage :=
  match msgs.getLast? with
  | none => msgs
  | some last =>
    if last.role = "user" then
      msgs.dropLast ++ [ChatMessage.mk last.role (last.content ++ directiveSuffix cap)]
    else msgs

/-- The full `messages` block of `ask_llama` (source lines 166–213). -/
def assembleMessages (db1 : Db) (context_key : String) : List ChatMessage :=
  appendDirective (preDirective db1 context_key) (response_cap db1)

/-- Outcome of the chat-completion HTTP POST, injected into the embedding:
network error, status flag, and the parsed `choices` messages. -/
inductive LlamaHttp where
  | netErr (e : String)
  | resp (success : Bool) (body : Except String (List ChatMessage))

/-- `Handler::ask_llama`, with the store lock serialized away (the function
holds the DB mutex for each access) and the HTTP outcome plus the two
possible store failures injected as arguments. -/
def ask_llama (llama_api_url : Option String) (db : Db) (now : Nat)
    (context_key user_message : String) (http : LlamaHttp)
    (storeUserFails storeReplyFails : Bool) : Db × Except String String :=
  match llama_api_url with
  | none => (db, Except.error "LLAMA_API_URL not configured")
  | some _ =>
    if storeUserFails then
      (db, Except.error "DB error storing user message")
    else
      let db1 := store_message db now context_key "user" user_message
      let _msgs := assembleMessages db1 context_key
      match http with
      | LlamaHttp.netErr e => (db1, Except.error ("Failed to reach llama.cpp: " ++ e))
      | LlamaHttp.resp false _ => (db1, Except.error "llama.cpp returned status")
      | LlamaHttp.resp true (Except.error e) =>
          (db1, Except.error ("Failed to parse response: " ++ e))
      | LlamaHttp.resp true (Except.ok choices) =>
          match choices.head? with
          | none => (db1, Except.error "No response from model")
          | some c =>
            let db2 := if storeReplyFails then db1
                       else store_message db1 now context_key "assistant" c.content
            (db2, Except.ok c.content)

/-- Claim C2: in the prompt assembled by `ask_llama`, the word-cap
directive is appended to the final message's content exactly when that
final message has role `user` (no directive otherwise), and the directive
lives only in the in-memory copy: the rows persisted by the success path
carry the original `user_message` and reply verbatim, never the
directive-suffixed content. -/
theorem ask_llama_directive_inMemory_only
    (url : String) (db db1 : Db) (now : Nat) (context_key user_message reply : String)
    (rest : List ChatMessage)
    (_hdb1 : db1 = store_message db now context_key "user" user_message) :
    (∀ last, (preDirective db1 context_key).getLast? = some last →
        assembleMessages db1 context_key
          = (if last.role = "user"
             then (preDirective db1 context_key).dropLast
                    ++ [ChatMessage.mk "user" (last.content ++ directiveSuffix (response_cap db1))]
             else preDirective db1 context_key))
    ∧ ((ask_llama (some url) db now context_key user_message
          (LlamaHttp.resp true (Except.ok (ChatMessage.mk "assistant" reply :: rest)))
          false false).1.rows
        = db.rows ++ [⟨db.nextId, context_key, "user", user_message, now⟩,
                      ⟨db.nextId + 1, context_key, "assistant", reply, now⟩]) := by
  constructor
  · intro last hlast
    unfold assembleMessages appendDirective
    rw [hlast]
    show (if last.role = "user"
      then (preDirective db1 context_key).dropLast
        ++ [ChatMessage.mk last.role (last.content ++ directiveSuffix (response_cap db1))]
      else preDirective db1 context_key) = _
    by_cases hrole : last.role = "user"
    · rw [if_pos hrole, if_pos hrole, hrole]
    · rw [if_neg hrole, if_neg hrole]
  · show (store_message (store_message db now context_key "user" user_message)
        now context_key "assistant" reply).rows = _
    unfold store_message
    simp

def wdbC2 : Db := { config := [], rows := [], tracked := [], nextId := 0 }

theorem ask_llama_directive_inMemory_only_witness :
    (∀ last, (preDirective (store_message wdbC2 5 "c" "user" "hi") "c").getLast? = some last →
        assembleMessages (store_message wdbC2 5 "c" "user" "hi") "c"
          = (if last.role = "user"
             then (preDirective (store_message wdbC2 5 "c" "user" "hi") "c").dropLast
                    ++ [ChatMessage.mk "user" (last.content
                          ++ directiveSuffix (response_cap (store_message wdbC2 5 "c" "user" "hi")))]
             else preDirective (store_message wdbC2 5 "c" "user" "hi") "c"))
    ∧ ((ask_llama (some "http://x") wdbC2 5 "c" "hi"
          (LlamaHttp.resp true (Except.ok (ChatMessage.mk "assistant" "yo" :: [])))
          false false).1.rows
        = wdbC2.rows ++ [⟨wdbC2.nextId, "c", "user", "hi", 5⟩,
                         ⟨wdbC2.nextId + 1, "c", "assistant", "yo", 5⟩]) :=
  ask_llama_directive_inMemory_only "http://x" wdbC2
    (store_message wdbC2 5 "c" "user" "hi") 5 "c" "hi" "yo" [] rfl

/-- Claim C7: once the chat completion succeeds and yields a reply, that
reply is returned even when persisting the assistant-role message fails
(`storeReplyFails` arbitrary): the store failure never turns the result
into an error. -/
theorem ask_llama_reply_survives_store_failure
    (url : String) (db : Db) (now : Nat) (context_key user_message : String)
    (c : ChatMessage) (rest : List ChatMessage) (storeReplyFails : Bool) :
    (ask_llama (some url) db now context_key user_message
        (LlamaHttp.resp true (Except.ok (c :: rest))) false storeReplyFails).2
      = Except.ok c.content := rfl

/-! ### Claims C3 / C4: the `!levelcheck` fan-out partition and sort -/

structure WowEnum where
  name : String
deriving DecidableEq

structure WowCharacter where
  name : String
  level : Nat
  race : WowEnum
  character_class : WowEnum
deriving DecidableEq

/-- The gather loop of the `!levelcheck` handler: one outcome per name
(`join_all` preserves index correspondence), pushed into `entries` on
success and into `errors` (as `"{name}: {err}"`) on failure. -/
def partitionResults (names : List String) (results : List (Except String WowCharacter)) :
    List (String × Nat × String) × List String :=
  (names.zip results).foldl
    (fun acc p =>
      match p.2 with
      | Except.ok c =>
          (acc.1 ++ [(c.name, c.level, c.race.name ++ " " ++ c.character_class.name)], acc.2)
      | Except.error e => (acc.1, acc.2 ++ [p.1 ++ ": " ++ e]))
    ([], [])

theorem partition_foldl_length (l : List (String × Except String WowCharacter))
    (acc : List (String × Nat × String) × List String) :
    ((l.foldl
      (fun acc p =>
        match p.2 with
        | Except.ok c =>
            (acc.1 ++ [(c.name, c.level, c.race.name ++ " " ++ c.character_class.name)], acc.2)
        | Except.error e => (acc.1, acc.2 ++ [p.1 ++ ": " ++ e]))
      acc).1.length
      + (l.foldl
      (fun acc p =>
        match p.2 with
        | Except.ok c =>
            (acc.1 ++ [(c.name, c.level, c.race.name ++ " " ++ c.character_class.name)], acc.2)
        | Except.error e => (acc.1, acc.2 ++ [p.1 ++ ": " ++ e]))
      acc).2.length)
      = acc.1.length + acc.2.length + l.length := by
  induction l generalizing acc with
  | nil => simp
  | cons p t ih =>
    cases hp : p.2 with
    | ok c =>
      simp only [List.foldl_cons, hp]
      rw [ih]
      simp
      omega
    | error e =>
      simp only [List.foldl_cons, hp]
      rw [ih]
      simp
      omega

/-- Claim C3: for every non-empty name list, the fan-out produces exactly
one outcome per input name — entries plus error lines count up to the
number of input names (`join_all` yields one result per future, so the
results list has the input's length). -/
theorem levelcheck_outcome_count (names : List String)
    (results : List (Except String WowCharacter))
    (_hne : names ≠ []) (hlen : results.length = names.length) :
    (partitionResults names results).1.length + (partitionResults names results).2.length
      = names.length := by
  unfold partitionResults
  rw [partition_foldl_length]
  simp [List.length_zip, hlen]

theorem levelcheck_outcome_count_witness :
    (partitionResults ["alpha", "beta"]
        [Except.ok ⟨"Alpha", 60, ⟨"Orc"⟩, ⟨"Warrior"⟩⟩, Except.error "not found"]).1.length
      + (partitionResults ["alpha", "beta"]
        [Except.ok ⟨"Alpha", 60, ⟨"Orc"⟩, ⟨"Warrior"⟩⟩, Except.error "not found"]).2.length
      = (["alpha", "beta"] : List String).length :=
  levelcheck_outcome_count ["alpha", "beta"]
    [Except.ok ⟨"Alpha", 60, ⟨"Orc"⟩, ⟨"Warrior"⟩⟩, Except.error "not found"]
    (by decide) rfl

/-- The comparator of `entries.sort_by(|a, b| b.1.cmp(&a.1))`: descending
by the level component. -/
def rankGE (a b : String × Nat × String) : Prop := b.2.1 ≤ a.2.1

instance : DecidableRel rankGE := fun a b =>
  inferInstanceAs (Decidable (b.2.1 ≤ a.2.1))

instance : IsTotal (String × Nat × String) rankGE :=
  ⟨fun a b => Or.symm (Nat.le_total a.2.1 b.2.1)⟩

instance : IsTrans (String × Nat × String) rankGE :=
  ⟨fun _ _ _ h1 h2 => Nat.le_trans h2 h1⟩

/-- `Vec::sort_by` is a stable sort; its semantics is embedded as the
stable insertion sort with the same descending comparator. -/
def sortEntries (entries : List (String × Nat × String)) : List (String × Nat × String) :=
  List.insertionSort rankGE entries

theorem filter_orderedInsert_rank (k : Nat) (a : String × Nat × String)
    (l : List (String × Nat × String)) :
    (List.orderedInsert rankGE a l).filter (fun e => e.2.1 == k)
      = if a.2.1 == k
        then a :: l.filter (fun e => e.2.1 == k)
        else l.filter (fun e => e.2.1 == k) := by
  rw [List.orderedInsert_eq_take_drop]
  rw [List.filter_append]
  have htw : (l.takeWhile (fun b => decide (¬ rankGE a b))).filter (fun e => e.2.1 == k)
      = if a.2.1 == k then [] else (l.takeWhile (fun b => decide (¬ rankGE a b))).filter (fun e => e.2.1 == k) := by
    by_cases hk : a.2.1 = k
    · rw [if_pos (by simp [hk])]
      rw [List.filter_eq_nil_iff]
      intro x hx
      have hgt : ¬ rankGE a x := by
        have := List.mem_takeWhile_imp hx
        simpa using this
      have hxk : a.2.1 < x.2.1 := by
        unfold rankGE at hgt
        omega
      simp only [beq_iff_eq]
      omega
    · rw [if_neg (by simp [hk])]
  by_cases hk : a.2.1 = k
  · rw [if_pos (by simp [hk])] at htw ⊢
    rw [htw]
    have hfl : l.filter (fun e => e.2.1 == k)
        = (l.takeWhile (fun b => decide (¬ rankGE a b))).filter (fun e => e.2.1 == k)
          ++ (l.dropWhile (fun b => decide (¬ rankGE a b))).filter (fun e => e.2.1 == k) := by
      rw [← List.filter_append, List.takeWhile_append_dropWhile]
    rw [hfl, htw]
    simp [hk]
  · rw [if_neg (by simp [hk])]
    have hfl : l.filter (fun e => e.2.1 == k)
        = (l.takeWhile (fun b => decide (¬ rankGE a b))).filter (fun e => e.2.1 == k)
          ++ (l.dropWhile (fun b => decide (¬ rankGE a b))).filter (fun e => e.2.1 == k) := by
      rw [← List.filter_append, List.takeWhile_append_dropWhile]
    rw [hfl]
    simp [hk]

theorem filter_sortEntries (k : Nat) (l : List (String × Nat × String)) :
    (sortEntries l).filter (fun e => e.2.1 == k) = l.filter (fun e => e.2.1 == k) := by
  induction l with
  | nil => rfl
  | cons a t ih =>
    unfold sortEntries at ih
    show (List.orderedInsert rankGE a (List.insertionSort rankGE t)).filter (fun e => e.2.1 == k)
      = (a :: t).filter (fun e => e.2.1 == k)
    rw [filter_orderedInsert_rank]
    by_cases hk : a.2.1 = k
    · rw [if_pos (by simp [hk])]
      rw [ih]
      simp [List.filter_cons, hk]
    · rw [if_neg (by simp [hk])]
      rw [ih]
      simp [List.filter_cons, hk]

/-- Claim C4: the fan-out entries are sorted by rank (level) descending;
the sort is stable — for every rank value the entries carrying it keep
the relative order in which the partition produced them — and on input
ranks `[10, 40, 25]` the output rank order is `[40, 25, 10]`. -/
theorem sortEntries_desc_stable :
    (∀ l : List (String × Nat × String), List.Sorted rankGE (sortEntries l))
    ∧ (∀ (k : Nat) (l : List (String × Nat × String)),
        (sortEntries l).filter (fun e => e.2.1 == k) = l.filter (fun e => e.2.1 == k))
    ∧ (sortEntries [("a", 10, "x"), ("b", 40, "y"), ("c", 25, "z")]).map (fun e => e.2.1)
        = [40, 25, 10] :=
  ⟨fun l => List.sorted_insertionSort rankGE l,
   fun k l => filter_sortEntries k l,
   by decide⟩


/-! ### Claims C5 / C6 / C9: the Battle.net credential cache -/

/-- `struct BattleNetAuth`; `Instant` is modelled as `Nat` time-units
(seconds). -/
structure BattleNetAuth where
  client_id : String
  client_secret : String
  token : Option String
  expires_at : Option Nat
deriving DecidableEq

/-- `BattleNetAuth::is_expired`: `Instant::now() >= exp`, and `true` when
no expiry was ever stored. -/
def BattleNetAuth.is_expired (a : BattleNetAuth) (now : Nat) : Bool :=
  match a.expires_at with
  | some exp => decide (exp ≤ now)
  | none => true

structure OAuthTokenResponse where
  access_token : String
  expires_in : Nat
deriving DecidableEq

/-- Outcome of the OAuth POST, injected into the embedding: network
error, or a response with a success flag and a parse outcome for the
body. -/
inductive OAuthHttp where
  | netErr (e : String)
  | resp (success : Bool) (body : Except String OAuthTokenResponse)

/-- `Handler::get_battlenet_token`, instrumented: the whole body runs
under the `Mutex`, so one call is one atomic step.  The third component
records whether the OAuth network round-trip was issued.  The `unwrap()`
on the cached token is modelled by `getD ""` (the code only stores
`token` and `expires_at` together, so that branch is reached with a
present token). -/
def get_battlenet_tokenN :
    Option BattleNetAuth → Nat → OAuthHttp →
      Option BattleNetAuth × Except String String × Bool
  | none, _, _ => (none, Except.error "Battle.net not configured", false)
  | some a, now, http =>
    if !a.is_expired now then
      (some a, Except.ok (a.token.getD ""), false)
    else
      match http with
      | OAuthHttp.netErr e => (some a, Except.error ("OAuth request failed: " ++ e), true)
      | OAuthHttp.resp false _ => (some a, Except.error "OAuth returned status", true)
      | OAuthHttp.resp true (Except.error e) =>
          (some a, Except.error ("Failed to parse OAuth response: " ++ e), true)
      | OAuthHttp.resp true (Except.ok tr) =>
          -- "Expire 60s early to avoid edge cases"; u64::saturating_sub
          (some { a with token := some tr.access_token,
                         expires_at := some (now + (tr.expires_in - 60)) },
           Except.ok tr.access_token, true)

/-- `Handler::get_battlenet_token` as the caller sees it: the resulting
cache state and the result. -/
def get_battlenet_token (auth : Option BattleNetAuth) (now : Nat) (http : OAuthHttp) :
    Option BattleNetAuth × Except String String :=
  ((get_battlenet_tokenN auth now http).1, (get_battlenet_tokenN auth now http).2.1)

theorem tokenN_cached (a : BattleNetAuth) (now : Nat) (http : OAuthHttp)
    (h : a.is_expired now = false) :
    get_battlenet_tokenN (some a) now http
      = (some a, Except.ok (a.token.getD ""), false) := by
  simp only [get_battlenet_tokenN, h]
  rfl

theorem tokenN_refreshOk (a : BattleNetAuth) (now : Nat) (tr : OAuthTokenResponse)
    (h : a.is_expired now = true) :
    get_battlenet_tokenN (some a) now (OAuthHttp.resp true (Except.ok tr))
      = (some { a with token := some tr.access_token,
                       expires_at := some (now + (tr.expires_in - 60)) },
         Except.ok tr.access_token, true) := by
  simp only [get_battlenet_tokenN, h]
  rfl

/-- Claim C5: a successful refresh stores
`expires_at = now + (reported_ttl − 60)` with saturating subtraction, and
whenever `reported_ttl ≤ 60` the remaining lifetime is exactly zero. -/
theorem refresh_expiry_margin (a : BattleNetAuth) (now : Nat) (tr : OAuthTokenResponse)
    (h : a.is_expired now = true) :
    (get_battlenet_token (some a) now (OAuthHttp.resp true (Except.ok tr))).1
        = some { a with token := some tr.access_token,
                        expires_at := some (now + (tr.expires_in - 60)) }
    ∧ (tr.expires_in ≤ 60 → (now + (tr.expires_in - 60)) - now = 0) := by
  constructor
  · unfold get_battlenet_token
    rw [tokenN_refreshOk a now tr h]
  · intro hle
    omega

theorem refresh_expiry_margin_witness :
    (get_battlenet_token (some ⟨"id", "sec", none, none⟩) 1000
        (OAuthHttp.resp true (Except.ok ⟨"tok", 45⟩))).1
        = some { (⟨"id", "sec", none, none⟩ : BattleNetAuth) with
                   token := some (⟨"tok", 45⟩ : OAuthTokenResponse).access_token,
                   expires_at := some (1000 + ((⟨"tok", 45⟩ : OAuthTokenResponse).expires_in - 60)) }
    ∧ ((⟨"tok", 45⟩ : OAuthTokenResponse).expires_in ≤ 60 →
        (1000 + ((⟨"tok", 45⟩ : OAuthTokenResponse).expires_in - 60)) - 1000 = 0) :=
  refresh_expiry_margin ⟨"id", "sec", none, none⟩ 1000 ⟨"tok", 45⟩ (by decide)

/-- The failure modes of the OAuth exchange: network error, non-success
status, or a body that does not parse. -/
def refreshFails : OAuthHttp → Bool
  | OAuthHttp.netErr _ => true
  | OAuthHttp.resp success body =>
      !success || (match body with
                   | Except.error _ => true
                   | Except.ok _ => false)

/-- Claim C6: every failing refresh (network error, non-success status,
malformed body) returns an error and leaves the cached `token` and
`expires_at` exactly as they were before the call. -/
theorem refresh_failure_preserves_state (a : BattleNetAuth) (now : Nat) (http : OAuthHttp)
    (hexp : a.is_expired now = true) (hf : refreshFails http = true) :
    (get_battlenet_token (some a) now http).1 = some a
    ∧ ∃ e, (get_battlenet_token (some a) now http).2 = Except.error e := by
  unfold get_battlenet_token
  cases http with
  | netErr e =>
    rw [show get_battlenet_tokenN (some a) now (OAuthHttp.netErr e)
        = (some a, Except.error ("OAuth request failed: " ++ e), true) by
      simp only [get_battlenet_tokenN, hexp]
      rfl]
    exact ⟨rfl, ⟨"OAuth request failed: " ++ e, rfl⟩⟩
  | resp success body =>
    cases success with
    | false =>
      rw [show get_battlenet_tokenN (some a) now (OAuthHttp.resp false body)
          = (some a, Except.error "OAuth returned status", true) by
        simp only [get_battlenet_tokenN, hexp]
        rfl]
      exact ⟨rfl, ⟨"OAuth returned status", rfl⟩⟩
    | true =>
      cases body with
      | error e =>
        rw [show get_battlenet_tokenN (some a) now (OAuthHttp.resp true (Except.error e))
            = (some a, Except.error ("Failed to parse OAuth response: " ++ e), true) by
          simp only [get_battlenet_tokenN, hexp]
          rfl]
        exact ⟨rfl, ⟨"Failed to parse OAuth response: " ++ e, rfl⟩⟩
      | ok tr => simp [refreshFails] at hf

theorem refresh_failure_preserves_state_witness :
    (get_battlenet_token (some ⟨"id", "sec", some "old", some 10⟩) 50
        (OAuthHttp.netErr "timeout")).1 = some ⟨"id", "sec", some "old", some 10⟩
    ∧ ∃ e, (get_battlenet_token (some ⟨"id", "sec", some "old", some 10⟩) 50
        (OAuthHttp.netErr "timeout")).2 = Except.error e :=
  refresh_failure_preserves_state ⟨"id", "sec", some "old", some 10⟩ 50
    (OAuthHttp.netErr "timeout") (by decide) (by decide)

/-- C9 model: `battlenet_auth` sits behind `Arc<Mutex<…>>` and
`get_battlenet_token` holds the lock for its whole body, so any
concurrent execution of `n` callers is equivalent to running the calls in
sequence against the shared cache.  `runAcquires` is that sequence at one
instant, accumulating how many OAuth round-trips were issued and each
caller's result. -/
def runAcquires :
    Nat → Option BattleNetAuth → Nat → OAuthHttp →
      Option BattleNetAuth × Nat × List (Except String String)
  | 0, auth, _, _ => (auth, 0, [])
  | Nat.succ m, auth, now, http =>
    let step := get_battlenet_tokenN auth now http
    let restOut := runAcquires m step.1 now http
    (restOut.1, (if step.2.2 then 1 else 0) + restOut.2.1, step.2.1 :: restOut.2.2)

theorem runAcquires_cached (m : Nat) (a : BattleNetAuth) (now : Nat) (http : OAuthHttp)
    (h : a.is_expired now = false) :
    runAcquires m (some a) now http
      = (some a, 0, List.replicate m (Except.ok (a.token.getD ""))) := by
  induction m with
  | zero => rfl
  | succ k ih =>
    unfold runAcquires
    rw [tokenN_cached a now http h]
    simp [ih, List.replicate_succ]

/-- Claim C9: when `n ≥ 1` callers race `get_battlenet_token` against an
expired token (mutex-serialized, at one instant), exactly one OAuth
round-trip is issued and every caller receives the same fresh token
(the reported ttl must exceed the 60-unit safety margin, otherwise the
fresh token is itself already expired). -/
theorem concurrent_acquire_single_refresh (n : Nat) (a : BattleNetAuth) (now : Nat)
    (tr : OAuthTokenResponse)
    (hexp : a.is_expired now = true) (httl : 60 < tr.expires_in) (hn : 1 ≤ n) :
    runAcquires n (some a) now (OAuthHttp.resp true (Except.ok tr))
      = (some { a with token := some tr.access_token,
                       expires_at := some (now + (tr.expires_in - 60)) },
         1, List.replicate n (Except.ok tr.access_token)) := by
  cases n with
  | zero => omega
  | succ m =>
    unfold runAcquires
    rw [tokenN_refreshOk a now tr hexp]
    have ha2 : ({ a with token := some tr.access_token, expires_at := some (now + (tr.expires_in - 60)) } : BattleNetAuth).is_expired now = false := by
      simp [BattleNetAuth.is_expired]
      omega
    have hrest := runAcquires_cached m
      { a with token := some tr.access_token, expires_at := some (now + (tr.expires_in - 60)) }
      now (OAuthHttp.resp true (Except.ok tr)) ha2
    simp only [hrest]
    simp [List.replicate_succ]

theorem concurrent_acquire_single_refresh_witness :
    runAcquires 50 (some ⟨"id", "sec", none, none⟩) 0
        (OAuthHttp.resp true (Except.ok ⟨"fresh", 86399⟩))
      = (some { (⟨"id", "sec", none, none⟩ : BattleNetAuth) with
                  token := some (⟨"fresh", 86399⟩ : OAuthTokenResponse).access_token,
                  expires_at := some (0 + ((⟨"fresh", 86399⟩ : OAuthTokenResponse).expires_in - 60)) },
         1, List.replicate 50 (Except.ok (⟨"fresh", 86399⟩ : OAuthTokenResponse).access_token)) :=
  concurrent_acquire_single_refresh 50 ⟨"id", "sec", none, none⟩ 0 ⟨"fresh", 86399⟩
    (by decide) (by decide) (by decide)

/-! ### Claim C10: idempotent initialization -/

theorem init_of_isSome (db : Db)
    (h : (db.config.find? (fun p => p.1 == "system_prompt")).isSome) :
    init db = db := by
  unfold init
  rw [if_pos h]

theorem init_of_none (db : Db)
    (h : db.config.find? (fun p => p.1 == "system_prompt") = none) :
    init db = { db with config := db.config ++ [("system_prompt", DEFAULT_SYSTEM_PROMPT)] } := by
  unfold init
  rw [if_neg (by rw [h]; simp)]

/-- Claim C10: `db::init` always leaves a `system_prompt` config value,
is idempotent, never touches the message / tracked-character rows or the
id counter, and preserves every existing config entry — in particular a
user-set `system_prompt` survives re-initialization. -/
theorem init_idempotent_seeds_default (db : Db) :
    (get_config (init db) "system_prompt").isSome = true
    ∧ init (init db) = init db
    ∧ (init db).rows = db.rows
    ∧ (init db).tracked = db.tracked
    ∧ (init db).nextId = db.nextId
    ∧ (∀ k v, get_config db k = some v → get_config (init db) k = some v) := by
  by_cases hf : (db.config.find? (fun p => p.1 == "system_prompt")).isSome
  · have hinit : init db = db := init_of_isSome db hf
    refine ⟨?_, ?_, ?_, ?_, ?_, ?_⟩
    · rw [hinit]
      unfold get_config
      rw [Option.isSome_map']
      exact hf
    · rw [hinit, hinit]
    · rw [hinit]
    · rw [hinit]
    · rw [hinit]
    · intro k v hkv
      rw [hinit]
      exact hkv
  · have hnone : db.config.find? (fun p => p.1 == "system_prompt") = none :=
      Option.not_isSome_iff_eq_none.mp hf
    have hinit := init_of_none db hnone
    have hfind2 : (init db).config.find? (fun p => p.1 == "system_prompt")
        = some ("system_prompt", DEFAULT_SYSTEM_PROMPT) := by
      rw [hinit]
      show (db.config ++ [("system_prompt", DEFAULT_SYSTEM_PROMPT)]).find? _ = _
      rw [List.find?_append, hnone]
      rfl
    refine ⟨?_, ?_, ?_, ?_, ?_, ?_⟩
    · unfold get_config
      rw [hfind2]
      rfl
    · exact init_of_isSome (init db) (by rw [hfind2]; rfl)
    · rw [hinit]
    · rw [hinit]
    · rw [hinit]
    · intro k v hkv
      unfold get_config at hkv ⊢
      rw [hinit]
      show ((db.config ++ [("system_prompt", DEFAULT_SYSTEM_PROMPT)]).find?
              (fun p => p.1 == k)).map (fun p => p.2) = some v
      rw [List.find?_append]
      rcases Option.map_eq_some'.mp hkv with ⟨p, hp, hpv⟩
      rw [hp]
      simp [hpv]

def wdbC10 : Db :=
  { config := [("system_prompt", "be nice"), ("response_cap", "25")]
    rows := [⟨1, "c", "user", "hello", 5⟩]
    tracked := [("Pyuul", "user123", 7)]
    nextId := 2 }

theorem init_idempotent_seeds_default_witness :
    (get_config (init wdbC10) "system_prompt").isSome = true
    ∧ init (init wdbC10) = init wdbC10
    ∧ (init wdbC10).rows = wdbC10.rows
    ∧ (init wdbC10).tracked = wdbC10.tracked
    ∧ (init wdbC10).nextId = wdbC10.nextId
    ∧ (∀ k v, get_config wdbC10 k = some v → get_config (init wdbC10) k = some v) :=
  init_idempotent_seeds_default wdbC10

end DiscordBot
